import Mathlib

/-!
Verification of the table-display adapter code of this repository.

The development shallowly embeds the two source files:

* `marimo/_plugins/ui/_impl/tables/narwhals_table.py` — the
  `NarwhalsTableManager` adapter over a (possibly lazy) dataframe.
  A materialized dataframe is modelled as a `Frame`: a typed header plus a
  list of rows whose cells are `Option String` (the textual content the
  adapter ultimately compares, exports or displays; `none` is a null cell).
  A possibly-lazy value is `NwData` (`eager` or `lazy`, where the carried
  frame of a `lazy` value is what `collect()` would produce).

* `marimo/_output/formatters/df_formatters.py` — the opinionated formatter
  registrations, modelled as functions from the outcome of the rich-render
  attempt to the final rendering result.

Delegated narwhals operations (`sort`, `head`, slicing, `filter`,
`group_by`, `str.contains`) are embedded by their documented semantics at
the call sites used in the source: the delegated sort is embedded
relationally by its contract — a permutation of the input ordered by the
key with `nulls_last`, with no stability promise, since the call requests
no order maintenance — and `str.contains` is regular-expression
containment (modelled on the fragment generated by the source: a `(?i)`
flag followed by the query, where `.` matches any character and other
characters match literally).
-/

namespace Marimo

/-- Column kinds distinguished by the adapter's schema dispatch
(`search`, `get_field_type`).  Only the distinctions the source branches on
are kept: strings, list-of-string, numeric, boolean, temporal, other. -/
inductive ColKind
  | str
  | listStr
  | numeric
  | boolean
  | temporal
  | other
deriving DecidableEq

/-- A materialized dataframe: named, kinded columns and rows of cells.
A cell is `Option String` — the textual content of the value (for numeric,
boolean and temporal columns, the text the value casts to); `none` is null. -/
structure Frame where
  header : List (String × ColKind)
  rows : List (List (Option String))
deriving DecidableEq

/-- The reserved selection-index column name
(`marimo/_plugins/ui/_impl/tables/selection.py`, imported by the source). -/
def INDEX_COLUMN_NAME : String := "_marimo_row_id"

/-- The empty frame, used as fallback when dereferencing a store index. -/
def emptyFrame : Frame := { header := [], rows := [] }

/-- Cell of a row at a column position; missing positions read as null. -/
def cellAt (i : Nat) (row : List (Option String)) : Option String :=
  (row.get? i).getD none

/-- A possibly-lazy tabular value: `lazy f` carries the frame that
`collect()` would materialize. -/
inductive NwData
  | eager (f : Frame)
  | lazy (f : Frame)

/-- Embeds `as_frame` (narwhals_table.py lines 51-54): collect when lazy. -/
def as_frame : NwData → Frame
  | .eager f => f
  | .lazy f => f

/-- Embeds `get_num_rows` (narwhals_table.py lines 386-400): with `force` collect
and count; otherwise `none` for lazy data, else the eager row count.
(The defensive `except` for metadata-only eager frames is not modelled:
eager frames in the embedding always know their shape.) -/
def get_num_rows (force : Bool) (d : NwData) : Option Nat :=
  if force then some (as_frame d).rows.length
  else
    match d with
    | .lazy _ => none
    | .eager f => some f.rows.length

/-- Embeds `get_column_names` (narwhals_table.py lines 405-409): schema names with
the first occurrence of the index column removed. -/
def get_column_names (f : Frame) : List String :=
  let ns := f.header.map Prod.fst
  if INDEX_COLUMN_NAME ∈ ns then ns.erase INDEX_COLUMN_NAME else ns

/-! ### Column summaries (claim C1) -/

/-- The subset of `ColumnSummary` fields (marimo/_data/models.py) needed by
the summary branches modelled here; unset statistics are `none`.
The Python fields `true`/`false` are keywords in Lean and are rendered as
`trueCount`/`falseCount`. -/
structure ColumnSummary where
  total : Option Nat := none
  nulls : Option Nat := none
  unique : Option Nat := none
  trueCount : Option Nat := none
  falseCount : Option Nat := none
deriving DecidableEq

/-- A typed column of values, as selected by `_get_summary_internal`.
Only the string and boolean branches are relevant to the claims. -/
inductive TypedCol
  | strC (cells : List (Option String))
  | boolC (cells : List (Option Bool))

/-- The `null_count()` of a column. -/
def countNone {β : Type} (cells : List (Option β)) : Nat :=
  cells.countP (fun c => c.isNone)

/-- The `col.sum()` of a boolean column: nulls are ignored, so this is the
number of `true` cells. -/
def boolSum (cells : List (Option Bool)) : Nat :=
  cells.countP (fun c => c == some true)

/-- Embeds `_get_summary_internal` (narwhals_table.py lines 292-314), restricted to
the branches the claims exercise: an unknown column name (`none`) yields an
empty summary; a string column gets total/nulls/unique; a boolean column
gets `true = col.sum()` and `false = total - col.sum()`.  (The temporal,
duration, nested and numeric branches populate other statistics and are not
modelled.) -/
def get_summary_internal : Option TypedCol → ColumnSummary
  | none => {}
  | some (.strC cells) =>
      { total := some cells.length
        nulls := some (countNone cells)
        unique := some cells.dedup.length }
  | some (.boolC cells) =>
      { total := some cells.length
        nulls := some (countNone cells)
        trueCount := some (boolSum cells)
        falseCount := some (cells.length - boolSum cells) }

/-! ### Opinionated formatters (claims C2, C9) -/

/-- A rendering outcome: a (MIME type, payload) pair, or a raised error. -/
abbrev RenderResult := Except String (String × String)

/-- Embeds `_show_marimo_dataframe` for `pl.DataFrame`
(df_formatters.py lines 38-46): the attempt to build the rich table is
guarded by try/except; on failure a warning is logged and the library's own
HTML representation is returned. -/
def show_marimo_dataframe (attempt : RenderResult) (defaultHtml : String) :
    RenderResult :=
  match attempt with
  | .ok r => .ok r
  | .error _ => .ok (("text/html"), defaultHtml)

/-- Embeds `_show_marimo_series` for `pl.Series`
(df_formatters.py lines 48-61): same guarded shape as the dataframe
formatter (the series-to-frame wrapping happens inside the try block). -/
def show_marimo_series (attempt : RenderResult) (defaultHtml : String) :
    RenderResult :=
  match attempt with
  | .ok r => .ok r
  | .error _ => .ok (("text/html"), defaultHtml)

/-- Embeds `_show_marimo_lazyframe` for `pl.LazyFrame`
(df_formatters.py lines 63-72): no try/except — the tabbed-view build
propagates any failure to the caller. -/
def show_marimo_lazyframe (attempt : RenderResult) : RenderResult :=
  attempt

/-- Embeds `_show_marimo_dataframe` for `pa.Table`
(df_formatters.py lines 87-91): no try/except — failures propagate. -/
def show_marimo_pyarrow_table (attempt : RenderResult) : RenderResult :=
  attempt

/-- The one configuration field read by `include_opinionated`. -/
structure MarimoConfig where
  dataframes : String
deriving DecidableEq

/-- Embeds `include_opinionated` (df_formatters.py lines 14-23): a runtime context,
when installed, carries a config; without one the result is `true`. -/
def include_opinionated (ctx : Option MarimoConfig) : Bool :=
  match ctx with
  | some c => c.dataframes == ("rich")
  | none => true

/-- The polars formatter registration (df_formatters.py lines 31-72): the
three opinionated formatters are installed only under `include_opinionated`. -/
def registered_polars_formatters (ctx : Option MarimoConfig) : List String :=
  if include_opinionated ctx then
    [("DataFrame"), ("Series"), ("LazyFrame")]
  else []

/-! ### take (claim C3) -/

/-- Embeds `take` (narwhals_table.py lines 240-249) on the rows of the wrapped
value: negative count or offset raise `ValueError`; offset `0` is
`head(count)`; otherwise the slice `data[offset : offset + count]`. -/
def take {α : Type} (count offset : Int) (rows : List α) :
    Except String (List α) :=
  if count < 0 then .error ("Count must be a positive integer")
  else if offset < 0 then .error ("Offset must be a non-negative integer")
  else if offset = 0 then .ok (rows.take count.toNat)
  else .ok ((rows.drop offset.toNat).take count.toNat)

/-! ### Sorting (claim C4) -/

/-- The comparison used by the delegated `data.sort(by, descending,
nulls_last=True)` call (narwhals_table.py lines 461-471): values ordered by
the column's order (reversed when descending), nulls last either way. -/
def optLe {α : Type} [LinearOrder α] (desc : Bool) :
    Option α → Option α → Bool
  | _, none => true
  | none, some _ => false
  | some x, some y => if desc then decide (y ≤ x) else decide (x ≤ y)

/-- The contract of the delegated `data.sort(by, descending,
nulls_last=True)` call: narwhals/polars promise a permutation of the input
ordered under the null-aware comparison.  The call site requests no order
maintenance, and the delegate documents none, so the contract does not
determine which of the admissible orderings of equal keys is returned —
in particular it does not promise stability. -/
def nwSortContract {ρ α : Type} [LinearOrder α] (desc : Bool)
    (key : ρ → Option α) (input output : List ρ) : Prop :=
  output.Perm input ∧
  output.Pairwise (fun r s => optLe desc (key r) (key s) = true)

/-- One admissible output of the delegated sort (a merge sort under the
same comparison).  Used only to show `nwSortContract` is satisfiable and
as the concrete result wrapped by the store operation, whose claims do not
depend on which admissible output the backend returns. -/
def aSortedPerm {ρ α : Type} [LinearOrder α] (desc : Bool)
    (key : ρ → Option α) (rows : List ρ) : List ρ :=
  rows.mergeSort (fun r s => optLe desc (key r) (key s))

/-- Position of a column name in a frame's header. -/
def colIdx (f : Frame) (name : String) : Nat :=
  (f.header.map Prod.fst).indexOf name

/-- Embeds `sort_values` (narwhals_table.py lines 461-471) relationally:
both the lazy and the eager branch delegate identically to
`data.sort(by, descending=descending, nulls_last=True)`, so a result is
any frame whose rows the delegate's contract admits, with the header
unchanged. -/
def sort_values_rel (by_ : String) (descending : Bool) (f g : Frame) :
    Prop :=
  g.header = f.header ∧
  nwSortContract descending (cellAt (colIdx f by_)) f.rows g.rows

/-- One admissible refinement of `sort_values`: the frame built from
`aSortedPerm`. -/
def sort_values_impl (by_ : String) (descending : Bool) (f : Frame) :
    Frame :=
  { f with rows := aSortedPerm descending (cellAt (colIdx f by_)) f.rows }

/-! ### Search (claim C5) -/

/-- Whether the schema entry gets a search expression
(narwhals_table.py lines 255-273): the index column is skipped, string
columns match directly, list-of-string columns are skipped (unsupported),
numeric, temporal and boolean columns are cast to text and matched; any
other dtype gets no expression. -/
def isSearchable (c : String × ColKind) : Bool :=
  if c.1 = INDEX_COLUMN_NAME then false
  else
    match c.2 with
    | .str => true
    | .numeric => true
    | .temporal => true
    | .boolean => true
    | _ => false

/-- Head matching of the regex fragment the source generates: the pattern
is the (lowercased) query where `.` matches any character and every other
character matches case-insensitively (the `(?i)` flag). -/
def reMatchHead : List Char → List Char → Bool
  | [], _ => true
  | _ :: _, [] => false
  | p :: ps, c :: cs =>
      (p == ('.') || p.toLower == c.toLower) && reMatchHead ps cs

/-- Regex containment: the pattern matches at some position of the text.
This embeds `str.contains` at the call sites of `search`. -/
def reContains (pat : List Char) : List Char → Bool
  | [] => reMatchHead pat []
  | c :: cs => reMatchHead pat (c :: cs) || reContains pat cs

/-- Literal case-insensitive head matching (no wildcard). -/
def litMatchHead : List Char → List Char → Bool
  | [], _ => true
  | _ :: _, [] => false
  | p :: ps, c :: cs => (p.toLower == c.toLower) && litMatchHead ps cs

/-- Case-insensitive substring occurrence — the spec's notion of the query
occurring as a substring of a cell. -/
def ciContains (pat : List Char) : List Char → Bool
  | [] => litMatchHead pat []
  | c :: cs => litMatchHead pat (c :: cs) || ciContains pat cs

/-- Characters that are special in the regular-expression syntax consumed
by the delegated `str.contains`. -/
def isRegexMeta (c : Char) : Bool :=
  c == ('.') || c == ('*') || c == ('+') || c == ('?') || c == ('(') ||
  c == (')') || c == ('[') || c == (']') || c == ('\x7b') ||
  c == ('\x7d') || c == ('|') || c == ('^') || c == ('$') || c == ('\\')

/-- Whether a cell matches the search pattern: null cells never match (the
null propagates through `str.contains` and the filter drops the row). -/
def cellMatches (pat : List Char) (cell : Option String) : Bool :=
  match cell with
  | none => false
  | some s => reContains pat s.data

/-- Whether a row matches: the OR of the per-column expressions over the
searchable columns. -/
def rowMatches (pat : List Char) (header : List (String × ColKind))
    (row : List (Option String)) : Bool :=
  (header.zip row).any (fun p => isSearchable p.1 && cellMatches pat p.2)

/-- Embeds `search` (narwhals_table.py lines 251-283): the query is lowercased,
one case-insensitive containment expression is built per searchable column;
with no searchable column the frame is filtered by literal `False`
(zero rows), otherwise rows matching the OR of the expressions are kept. -/
def search (query : String) (f : Frame) : Frame :=
  let pat := query.data.map Char.toLower
  if f.header.any isSearchable then
    { f with rows := f.rows.filter (fun row => rowMatches pat f.header row) }
  else
    { f with rows := [] }

/-- Literal counterpart of `cellMatches`, used to state the amended claim. -/
def cellMatchesLit (pat : List Char) (cell : Option String) : Bool :=
  match cell with
  | none => false
  | some s => ciContains pat s.data

/-- Literal counterpart of `rowMatches`. -/
def rowMatchesLit (pat : List Char) (header : List (String × ColKind))
    (row : List (Option String)) : Bool :=
  (header.zip row).any (fun p => isSearchable p.1 && cellMatchesLit pat p.2)

/-! ### Format mappings and the transforming operations (claims C7, C8) -/

/-- A format mapping: per-column export-time value transformers, keyed by
column name (marimo/_plugins/ui/_impl/tables/format.py, imported by the
source). -/
abbrev FormatMapping := List (String × (Option String → Option String))

/-- The transforming core of `apply_formatting`
(narwhals_table.py lines 93-109) on a materialized frame: each column whose
name appears in the mapping has its values passed through the mapped
function; the header is unchanged and a new frame is built. -/
def apply_format_mapping (fm : FormatMapping) (f : Frame) : Frame :=
  { f with
    rows := f.rows.map (fun row =>
      List.zipWith
        (fun (h : String × ColKind) cell =>
          match fm.find? (fun p => p.1 == h.1) with
          | some p => p.2 cell
          | none => cell)
        f.header row) }

/-- Embeds `apply_formatting` (narwhals_table.py lines 93-109): the guard
`if not format_mapping` is a falsiness check, so both `None` and an empty
mapping make the adapter return `self` unchanged; the frame-level result
is the identity in those cases. -/
def apply_formatting (fm : Option FormatMapping) (f : Frame) : Frame :=
  match fm with
  | none => f
  | some m => if m.isEmpty then f else apply_format_mapping m f

/-- Joining pieces of text with a separator character. -/
def joinSep (sep : Char) : List (List Char) → List Char
  | [] => []
  | [x] => x
  | x :: y :: rest => x ++ sep :: joinSep sep (y :: rest)

/-- Splitting text at a separator character (inverse of `joinSep` on
separator-free pieces). -/
def splitSep (sep : Char) : List Char → List (List Char)
  | [] => [[]]
  | c :: cs =>
      let r := splitSep sep cs
      if c = sep then [] :: r
      else
        match r with
        | [] => [[c]]
        | x :: xs => (c :: x) :: xs

/-- The text a cell contributes to the CSV export; nulls export as empty. -/
def csvCellText (cell : Option String) : List Char :=
  match cell with
  | none => []
  | some s => s.data

/-- Modelled from the spec: `dataframe_to_csv`
(marimo/_utils/narwhals_utils.py, imported by the source but not part of
this excerpt) serializes the materialized data as CSV text — a header line
of the column names followed by one comma-separated line per row. -/
def dataframe_to_csv (f : Frame) : List Char :=
  joinSep ('\n')
    ((joinSep (',') ((f.header.map Prod.fst).map String.data)) ::
      f.rows.map (fun row => joinSep (',') (row.map csvCellText)))

/-- Embeds `to_csv_str` (narwhals_table.py lines 65-70): apply the optional format
mapping, materialize, serialize as CSV. -/
def to_csv_str (fm : Option FormatMapping) (f : Frame) : List Char :=
  dataframe_to_csv (apply_formatting fm f)

/-- Modelled from the spec: re-parsing the produced text as CSV — lines
split at newlines, fields split at commas; the first line is the header. -/
def parse_csv (s : List Char) : List (List (List Char)) :=
  (splitSep ('\n') s).map (splitSep (','))

/-! ### The adapter store: object identity of transforming operations
(claim C8).  A `Store` holds the frames wrapped by the adapter instances
created so far; an adapter instance is an index into it.  Every source
operation that calls `with_new_data` (or builds a fresh
`NarwhalsTableManager`) allocates a new index; `apply_formatting` with no
mapping returns `self` — the same index. -/

structure Store where
  frames : List Frame

/-- Construction of a new adapter instance around a frame. -/
def alloc (s : Store) (f : Frame) : Store × Nat :=
  ({ frames := s.frames ++ [f] }, s.frames.length)

/-- The frame wrapped by instance `m`. -/
def readFrame (s : Store) (m : Nat) : Frame :=
  s.frames.getD m emptyFrame

/-- The transforming core of `select_rows`
(narwhals_table.py lines 114-125): empty indices yield `head(0)`; with the
index column present, rows whose index cell is in `indices` are kept
(index cells hold the decimal text of the position); otherwise positional
selection. -/
def select_rows_f (indices : List Nat) (f : Frame) : Frame :=
  if indices.isEmpty then { f with rows := [] }
  else if INDEX_COLUMN_NAME ∈ f.header.map Prod.fst then
    { f with
      rows := f.rows.filter (fun row =>
        match cellAt (colIdx f INDEX_COLUMN_NAME) row with
        | some s => indices.any (fun i => toString i == s)
        | none => false) }
  else { f with rows := indices.filterMap (fun i => f.rows.get? i) }

/-- Positions of the selected column names in the header. -/
def colPositions (f : Frame) (columns : List String) : List Nat :=
  columns.filterMap (fun c => (f.header.map Prod.fst).indexOf? c)

/-- The transforming core of `select_columns`
(narwhals_table.py lines 127-128): projection onto the named columns, in
the order given. -/
def select_columns_f (columns : List String) (f : Frame) : Frame :=
  let pos := colPositions f columns
  { header := pos.filterMap (fun i => f.header.get? i)
    rows := f.rows.map (fun row => pos.map (fun i => cellAt i row)) }

/-- The transforming core of `drop_columns`
(narwhals_table.py lines 155-156): `strict=False` projection away from the
named columns; nonexistent names are tolerated. -/
def drop_columns_f (columns : List String) (f : Frame) : Frame :=
  let keep := (List.range f.header.length).filter (fun i =>
    match f.header.get? i with
    | some h => decide (h.1 ∉ columns)
    | none => false)
  { header := keep.filterMap (fun i => f.header.get? i)
    rows := f.rows.map (fun row => keep.map (fun i => cellAt i row)) }

/-- Operation `select_rows` as a store operation: reads, transforms, allocates. -/
def select_rows_op (s : Store) (m : Nat) (indices : List Nat) :
    Store × Nat :=
  alloc s (select_rows_f indices (readFrame s m))

/-- Operation `select_columns` as a store operation. -/
def select_columns_op (s : Store) (m : Nat) (columns : List String) :
    Store × Nat :=
  alloc s (select_columns_f columns (readFrame s m))

/-- Operation `drop_columns` as a store operation. -/
def drop_columns_op (s : Store) (m : Nat) (columns : List String) :
    Store × Nat :=
  alloc s (drop_columns_f columns (readFrame s m))

/-- Operation `take` as a store operation: the argument checks of
narwhals_table.py lines 240-249 ahead of allocation. -/
def take_op (s : Store) (m : Nat) (count offset : Int) :
    Except String (Store × Nat) :=
  match take count offset (readFrame s m).rows with
  | .error e => .error e
  | .ok rows => .ok (alloc s { readFrame s m with rows := rows })

/-- Operation `sort_values` as a store operation: wraps one admissible
result of the delegated sort (which one is irrelevant to the identity and
preservation claims). -/
def sort_values_op (s : Store) (m : Nat) (by_ : String) (descending : Bool) :
    Store × Nat :=
  alloc s (sort_values_impl by_ descending (readFrame s m))

/-- Operation `search` as a store operation. -/
def search_op (s : Store) (m : Nat) (query : String) : Store × Nat :=
  alloc s (search query (readFrame s m))

/-- Operation `apply_formatting` as a store operation: the source's guard
`if not format_mapping: return self` is a falsiness check, so with no
mapping or an empty mapping the same instance is returned with no
allocation; only a nonempty mapping builds a new instance. -/
def apply_formatting_op (s : Store) (m : Nat) (fm : Option FormatMapping) :
    Store × Nat :=
  match fm with
  | none => (s, m)
  | some fmap =>
      if fmap.isEmpty then (s, m)
      else alloc s (apply_format_mapping fmap (readFrame s m))

/-! ### Top-k aggregation (claim C10) -/

/-- Group the cells of a column by value with their multiplicities. -/
def groupCounts (cells : List (Option String)) :
    List (Option String × Nat) :=
  cells.dedup.map (fun v => (v, cells.count v))

/-- The ordering of the top-k result sort
(narwhals_table.py lines 189-196): by count descending, ties by value
descending, nulls last. -/
def topKLe (a b : Option String × Nat) : Bool :=
  if a.2 = b.2 then optLe true a.1 b.1 else decide (b.2 < a.2)

/-- The count-column name search (narwhals_table.py lines 177-186): the
first of the three candidates not already a column name. -/
def chooseCountName (columns : List String) (column : String) :
    Option String :=
  ([("count"), (("count of ") ++ column), ("num_rows")]).find?
    (fun c => decide (c ∉ columns))

/-- Embeds `calculate_top_k_rows` (narwhals_table.py lines 163-204): lazy frames
are rejected up front, before any aggregation; an unknown column name is
rejected next; then the column is grouped, counted, sorted descending with
nulls last, and truncated to `k`. -/
def calculate_top_k_rows (d : NwData) (column : String) (k : Nat) :
    Except String (List (Option String × Nat)) :=
  match d with
  | .lazy _ =>
      .error ("Cannot calculate top k rows for lazy frames, please collect the data first")
  | .eager f =>
      let columns := get_column_names f
      if column ∈ columns then
        match chooseCountName columns column with
        | none =>
            .error ("Cannot specify a count column name, please rename your column")
        | some _ =>
            .ok (((groupCounts (f.rows.map (cellAt (colIdx f column)))).mergeSort
              topKLe).take k)
      else .error (("Column ") ++ column ++ (" not found in table."))

/-! ### Concrete fixtures for witnesses and counterexamples -/

/-- A one-column, one-row string frame with cell "a". -/
def exFrameDot : Frame :=
  { header := [(("s"), ColKind.str)], rows := [[some ("a")]] }

/-- A one-column string frame with cells "xAbc" and "zz". -/
def exFrameABC : Frame :=
  { header := [(("s"), ColKind.str)], rows := [[some ("xAbc")], [some ("zz")]] }

/-- A two-column frame with one row, for the CSV round trip. -/
def exFrameCsv : Frame :=
  { header := [(("a"), ColKind.str), (("b"), ColKind.numeric)]
    rows := [[some ("x"), some ("1")]] }

/-- A store holding one adapter instance. -/
def exStore : Store := { frames := [exFrameDot] }

/-- A two-row frame whose rows carry equal sort keys in column "s". -/
def exPairFrame : Frame :=
  { header := [(("s"), ColKind.str), (("t"), ColKind.str)]
    rows := [[some ("x"), some ("1")], [some ("x"), some ("2")]] }

/-- The same frame with its two equal-key rows in the opposite order. -/
def exPairSwap : Frame :=
  { header := [(("s"), ColKind.str), (("t"), ColKind.str)]
    rows := [[some ("x"), some ("2")], [some ("x"), some ("1")]] }

/-! ## Theorems -/

/-- C1 (counterexample): on the boolean column `[true, null]` the summary
has `true = 1`, `false = 1`, `total = 2`, `nulls = 1`, and
`true + false = 2` differs from `total - nulls = 1`: the claimed identity
`true + false == total - nulls` fails because `false = total - col.sum()`
counts the null cell as false. -/
theorem bool_summary_claim_cex :
    (get_summary_internal (some (TypedCol.boolC [some true, none]))).trueCount
        = some 1 ∧
    (get_summary_internal (some (TypedCol.boolC [some true, none]))).falseCount
        = some 1 ∧
    (get_summary_internal (some (TypedCol.boolC [some true, none]))).total
        = some 2 ∧
    (get_summary_internal (some (TypedCol.boolC [some true, none]))).nulls
        = some 1 ∧
    ((1 + 1 == 2 - 1) = false) := by
  decide

/-- C1 (amended): for every boolean column, `getSummary` populates
`true = col.sum()` (the number of true cells), `false = total - col.sum()`
and `total`, and the true count plus the false count equals the total row
count (the false count absorbs the nulls). -/
theorem bool_summary_true_add_false_eq_total (cells : List (Option Bool)) :
    (get_summary_internal (some (TypedCol.boolC cells))).trueCount
        = some (boolSum cells) ∧
    (get_summary_internal (some (TypedCol.boolC cells))).falseCount
        = some (cells.length - boolSum cells) ∧
    (get_summary_internal (some (TypedCol.boolC cells))).total
        = some cells.length ∧
    boolSum cells + (cells.length - boolSum cells) = cells.length := by
  refine ⟨rfl, rfl, rfl, ?_⟩
  have h : boolSum cells ≤ cells.length := List.countP_le_length _
  omega

/-- C2 (counterexample): the registered opinionated formatter for polars
lazy frames has no exception guard — a failure while building the tabbed
rich view propagates to the caller instead of being replaced by the default
representation. -/
theorem lazyframe_formatter_propagates :
    show_marimo_lazyframe (Except.error ("boom")) = Except.error ("boom") ∧
    (show_marimo_lazyframe (Except.error ("boom"))).isOk = false := by
  exact ⟨rfl, rfl⟩

/-- C2 (amended): the polars DataFrame and Series formatters catch any
failure of the rich-table attempt and substitute the library's default
HTML representation, so they never propagate an error; the polars
LazyFrame and pyarrow Table formatters have no guard and return the
attempt's outcome unchanged, errors included. -/
theorem formatter_fallback_amended (attempt : RenderResult)
    (defaultHtml : String) :
    (show_marimo_dataframe attempt defaultHtml).isOk = true ∧
    (show_marimo_series attempt defaultHtml).isOk = true ∧
    (∀ e, attempt = Except.error e →
      show_marimo_dataframe attempt defaultHtml
          = Except.ok (("text/html"), defaultHtml) ∧
      show_marimo_series attempt defaultHtml
          = Except.ok (("text/html"), defaultHtml)) ∧
    show_marimo_lazyframe attempt = attempt ∧
    show_marimo_pyarrow_table attempt = attempt := by
  cases attempt <;>
    simp [show_marimo_dataframe, show_marimo_series, show_marimo_lazyframe,
      show_marimo_pyarrow_table, Except.isOk, Except.toBool]

/-- C2 (witness): the amended theorem at a failing attempt. -/
theorem formatter_fallback_witness :
    (show_marimo_dataframe (Except.error ("boom")) ("default")).isOk = true ∧
    (show_marimo_series (Except.error ("boom")) ("default")).isOk = true ∧
    show_marimo_dataframe (Except.error ("boom")) ("default")
        = Except.ok (("text/html"), ("default")) ∧
    show_marimo_series (Except.error ("boom")) ("default")
        = Except.ok (("text/html"), ("default")) := by
  obtain ⟨h1, h2, h3, _, _⟩ :=
    formatter_fallback_amended (Except.error ("boom")) ("default")
  obtain ⟨h4, h5⟩ := h3 ("boom") rfl
  exact ⟨h1, h2, h4, h5⟩

/-- C6: on a lazy, uncollected value `get_num_rows` returns `none` without
force, and with force materializes and returns the exact row count. -/
theorem get_num_rows_lazy_spec (f : Frame) :
    get_num_rows false (NwData.lazy f) = none ∧
    get_num_rows true (NwData.lazy f) = some f.rows.length ∧
    as_frame (NwData.lazy f) = f := by
  exact ⟨rfl, rfl, rfl⟩

/-- C9: without an installed runtime context `include_opinionated` is
`true` and the polars formatters are registered; with a context they are
registered exactly when the `display.dataframes` configuration is
`"rich"`. -/
theorem include_opinionated_spec :
    include_opinionated none = true ∧
    registered_polars_formatters none
        = [("DataFrame"), ("Series"), ("LazyFrame")] ∧
    (∀ c : MarimoConfig,
      include_opinionated (some c) = (c.dataframes == ("rich")) ∧
      ((registered_polars_formatters (some c)).isEmpty = false
        ↔ c.dataframes = ("rich"))) := by
  refine ⟨rfl, rfl, fun c => ⟨rfl, ?_⟩⟩
  by_cases h : c.dataframes = ("rich") <;>
    simp [registered_polars_formatters, include_opinionated, h]

/-- C9 (witness): the characterization at a concrete installed context. -/
theorem include_opinionated_witness :
    include_opinionated (some { dataframes := ("rich") }) = true ∧
    (registered_polars_formatters
        (some { dataframes := ("rich") })).isEmpty = false := by
  obtain ⟨-, -, h⟩ := include_opinionated_spec
  obtain ⟨h1, h2⟩ := h { dataframes := ("rich") }
  exact ⟨h1, h2.mpr rfl⟩

/-- C10: `calculate_top_k_rows` rejects every lazy frame up front with the
lazy-frame `ValueError`, for every column name and `k`; and on eager data
it rejects every column name that is not among the table's column names
with the not-found `ValueError`. -/
theorem calculate_top_k_rows_errors (f : Frame) (column : String) (k : Nat) :
    calculate_top_k_rows (NwData.lazy f) column k =
      Except.error
        ("Cannot calculate top k rows for lazy frames, please collect the data first") ∧
    (column ∉ get_column_names f →
      calculate_top_k_rows (NwData.eager f) column k =
        Except.error (("Column ") ++ column ++ (" not found in table."))) := by
  refine ⟨rfl, fun hcol => ?_⟩
  simp only [calculate_top_k_rows]
  rw [if_neg hcol]

/-- C10 (witness): on a concrete eager frame lacking column "zz", and on
its lazy counterpart, both error branches fire. -/
theorem calculate_top_k_rows_witness :
    calculate_top_k_rows (NwData.lazy exFrameDot) ("zz") 3 =
      Except.error
        ("Cannot calculate top k rows for lazy frames, please collect the data first") ∧
    calculate_top_k_rows (NwData.eager exFrameDot) ("zz") 3 =
      Except.error (("Column ") ++ ("zz") ++ (" not found in table.")) := by
  refine ⟨(calculate_top_k_rows_errors exFrameDot ("zz") 3).1, ?_⟩
  exact (calculate_top_k_rows_errors exFrameDot ("zz") 3).2 (by decide)

/-- C3: for nonnegative `count` and `offset`, `take` returns exactly the
rows starting at position `offset`, at most `count` of them; for a negative
`count` or `offset` it raises a `ValueError` instead. -/
theorem take_spec {α : Type} (count offset : Int) (rows : List α) :
    (0 ≤ count → 0 ≤ offset →
      take count offset rows
          = Except.ok ((rows.drop offset.toNat).take count.toNat) ∧
      ((rows.drop offset.toNat).take count.toNat).length ≤ count.toNat) ∧
    ((count < 0 ∨ offset < 0) → ∃ e, take count offset rows = Except.error e) := by
  constructor
  · intro hc ho
    refine ⟨?_, ?_⟩
    · unfold take
      rw [if_neg (by omega), if_neg (by omega)]
      by_cases h0 : offset = 0
      · subst h0
        simp
      · rw [if_neg h0]
    · rw [List.length_take]
      exact min_le_left _ _
  · intro h
    unfold take
    by_cases hc : count < 0
    · rw [if_pos hc]
      exact ⟨_, rfl⟩
    · have ho : offset < 0 := h.resolve_left hc
      rw [if_neg hc, if_pos ho]
      exact ⟨_, rfl⟩

/-- C3 (witness): `take 2 1` on a three-row table returns the two rows at
positions 1 and 2, and `take (-1) 0` errors. -/
theorem take_spec_witness :
    take (2 : Int) (1 : Int) ([10, 20, 30] : List Nat)
        = Except.ok ((([10, 20, 30] : List Nat).drop (1 : Int).toNat).take
            (2 : Int).toNat) ∧
    ((([10, 20, 30] : List Nat).drop (1 : Int).toNat).take
        (2 : Int).toNat).length ≤ (2 : Int).toNat ∧
    (∃ e, take (-1 : Int) (0 : Int) ([10, 20, 30] : List Nat)
        = Except.error e) := by
  obtain ⟨h1, h2⟩ :=
    (take_spec (2 : Int) (1 : Int) ([10, 20, 30] : List Nat)).1
      (by decide) (by decide)
  exact ⟨h1, h2,
    (take_spec (-1 : Int) (0 : Int) ([10, 20, 30] : List Nat)).2
      (Or.inl (by decide))⟩

/-- The comparison `optLe` is transitive. -/
theorem optLe_trans {α : Type} [LinearOrder α] (desc : Bool) :
    ∀ a b c : Option α, optLe desc a b = true → optLe desc b c = true →
      optLe desc a c = true := by
  intro a b c h1 h2
  cases c with
  | none => cases a <;> simp [optLe]
  | some z =>
    cases b with
    | none => simp [optLe] at h2
    | some y =>
      cases a with
      | none => simp [optLe] at h1
      | some x =>
        cases desc <;> simp [optLe] at h1 h2 ⊢
        · exact le_trans h1 h2
        · exact le_trans h2 h1

/-- The comparison `optLe` is total. -/
theorem optLe_total {α : Type} [LinearOrder α] (desc : Bool) :
    ∀ a b : Option α, (optLe desc a b || optLe desc b a) = true := by
  intro a b
  cases a with
  | none => cases b <;> simp [optLe]
  | some x =>
    cases b with
    | none => simp [optLe]
    | some y =>
      cases desc with
      | false => simpa [optLe] using le_total x y
      | true => simpa [optLe] using le_total y x

/-- The concrete admissible output is a permutation of the input rows. -/
theorem aSortedPerm_perm {ρ α : Type} [LinearOrder α] (desc : Bool)
    (key : ρ → Option α) (rows : List ρ) :
    (aSortedPerm desc key rows).Perm rows :=
  List.mergeSort_perm rows _

/-- The concrete admissible output is sorted under the null-aware
comparison. -/
theorem aSortedPerm_pairwise {ρ α : Type} [LinearOrder α] (desc : Bool)
    (key : ρ → Option α) (rows : List ρ) :
    (aSortedPerm desc key rows).Pairwise
      (fun r s => optLe desc (key r) (key s) = true) := by
  unfold aSortedPerm
  exact List.sorted_mergeSort
    (fun a b c h1 h2 => optLe_trans desc (key a) (key b) (key c) h1 h2)
    (fun a b => optLe_total desc (key a) (key b)) rows

/-- C4 (counterexample): at a concrete two-row input whose rows carry equal
sort keys, the delegated sort's contract (permutation, ordered with nulls
last — the call requests no order maintenance) admits the output with the
two rows swapped, which is not stable: the equal-key subsequence comes back
reversed.  So the code does not guarantee the claimed stable sort. -/
theorem sort_values_not_stable_cex :
    sort_values_rel ("s") false exPairFrame exPairSwap ∧
    (decide (exPairSwap.rows = exPairFrame.rows)) = false ∧
    (decide (exPairSwap.rows.filter
        (fun r => decide (cellAt (colIdx exPairFrame ("s")) r = some ("x")))
      = exPairFrame.rows.filter
        (fun r => decide (cellAt (colIdx exPairFrame ("s")) r
          = some ("x"))))) = false := by
  have hkey : ∀ r ∈ exPairSwap.rows,
      cellAt (colIdx exPairFrame ("s")) r = some ("x") := by
    intro r hr
    rcases List.mem_cons.mp hr with h | h
    · rw [h]; decide
    · rcases List.mem_cons.mp h with h2 | h2
      · rw [h2]; decide
      · exact absurd h2 (List.not_mem_nil r)
  refine ⟨⟨rfl, by decide, ?_⟩, by decide, by decide⟩
  refine List.pairwise_of_forall_mem_list ?_
  intro a ha b hb
  rw [hkey a ha, hkey b hb]
  simp [optLe]

/-- C4 (amended): `sort_values` delegates to the backend sort with
`nulls_last=True` for both the lazy and the eager branch; the delegate's
contract is satisfiable, and every result it admits keeps the header, is a
permutation of the rows, and places all rows whose sort-column cell is null
last, for both sort directions.  Stability is not part of the contract. -/
theorem sort_values_rel_spec (by_ : String) (descending : Bool) (f : Frame) :
    sort_values_rel by_ descending f (sort_values_impl by_ descending f) ∧
    (∀ g : Frame, sort_values_rel by_ descending f g →
      g.header = f.header ∧ g.rows.Perm f.rows ∧
      g.rows.Pairwise (fun r s => cellAt (colIdx f by_) r = none →
        cellAt (colIdx f by_) s = none)) := by
  constructor
  · exact ⟨rfl, aSortedPerm_perm descending _ f.rows,
      aSortedPerm_pairwise descending _ f.rows⟩
  · intro g hg
    obtain ⟨hh, hperm, hpw⟩ := hg
    refine ⟨hh, hperm, hpw.imp ?_⟩
    intro r s h hr
    rw [hr] at h
    cases hs : cellAt (colIdx f by_) s with
    | none => rfl
    | some z => rw [hs] at h; simp [optLe] at h

/-- C4 (witness): on the concrete two-row fixture, the contract is
satisfied by the concrete admissible output for both directions, and that
output keeps the header, permutes the rows and has nulls last. -/
theorem sort_values_rel_witness :
    sort_values_rel ("s") true exPairFrame
      (sort_values_impl ("s") true exPairFrame) ∧
    ((sort_values_impl ("s") true exPairFrame).header
        = exPairFrame.header ∧
      (sort_values_impl ("s") true exPairFrame).rows.Perm
        exPairFrame.rows ∧
      (sort_values_impl ("s") true exPairFrame).rows.Pairwise
        (fun r s => cellAt (colIdx exPairFrame ("s")) r = none →
          cellAt (colIdx exPairFrame ("s")) s = none)) ∧
    sort_values_rel ("s") false exPairFrame
      (sort_values_impl ("s") false exPairFrame) := by
  obtain ⟨h1, h2⟩ := sort_values_rel_spec ("s") true exPairFrame
  obtain ⟨h3, -⟩ := sort_values_rel_spec ("s") false exPairFrame
  exact ⟨h1, h2 _ h1, h3⟩

/-- On a pattern free of the wildcard character, regex head matching is
literal case-insensitive head matching. -/
theorem reMatchHead_eq_lit (pat : List Char)
    (h : pat.all (fun c => !(c == ('.'))) = true) :
    ∀ s, reMatchHead pat s = litMatchHead pat s := by
  induction pat with
  | nil => intro s; cases s <;> rfl
  | cons p ps ih =>
    simp only [List.all_cons, Bool.and_eq_true, Bool.not_eq_true'] at h
    intro s
    cases s with
    | nil => rfl
    | cons c cs =>
      simp only [reMatchHead, litMatchHead]
      rw [h.1, Bool.false_or, ih (by simpa using h.2) cs]

/-- On a pattern free of the wildcard character, regex containment is
literal case-insensitive substring occurrence. -/
theorem reContains_eq_ci (pat : List Char)
    (h : pat.all (fun c => !(c == ('.'))) = true) :
    ∀ s, reContains pat s = ciContains pat s := by
  intro s
  induction s with
  | nil =>
    simp only [reContains, ciContains]
    rw [reMatchHead_eq_lit pat h]
  | cons c cs ih =>
    simp only [reContains, ciContains]
    rw [reMatchHead_eq_lit pat h, ih]

/-- On a wildcard-free pattern, cell matching is literal. -/
theorem cellMatches_eq_lit (pat : List Char)
    (h : pat.all (fun c => !(c == ('.'))) = true) :
    cellMatches pat = cellMatchesLit pat := by
  funext cell
  cases cell with
  | none => rfl
  | some s =>
    simp only [cellMatches, cellMatchesLit]
    rw [reContains_eq_ci pat h]

/-- C5 (counterexample): the query `"."` does not occur, even
case-insensitively, as a substring of the only cell `"a"` of the fixture's
single searchable column, yet `search "."` keeps the row: the delegated
`str.contains` treats the query as a regular expression, so the claimed
zero-rows guarantee for substring-free queries fails. -/
theorem search_regex_cex :
    ciContains ((("." : String)).data.map Char.toLower)
        ((("a" : String)).data) = false ∧
    (search (".") exFrameDot).rows = [[some ("a")]] ∧
    (search (".") exFrameDot).rows.length = 1 := by
  refine ⟨by decide, by decide, by decide⟩

/-- C5 (amended): for a query containing no regular-expression
metacharacter, `search` keeps the header and filters exactly the rows in
which the lowercased query occurs case-insensitively as a substring of a
cell of some searchable column (string, numeric, boolean or temporal,
non-string cells through their text); when it occurs in no row, the result
has zero rows.  (For queries with metacharacters the query is interpreted
as a regular expression instead.) -/
theorem search_literal_substring (query : String) (f : Frame)
    (hq : ((query.data.map Char.toLower).all
        (fun c => !isRegexMeta c)) = true) :
    (search query f).header = f.header ∧
    (search query f).rows = f.rows.filter
      (fun row => rowMatchesLit (query.data.map Char.toLower) f.header row) ∧
    ((f.rows.all fun row =>
        !rowMatchesLit (query.data.map Char.toLower) f.header row) = true →
      (search query f).rows = []) := by
  have hdot : ((query.data.map Char.toLower).all
      (fun c => !(c == ('.')))) = true := by
    rw [List.all_eq_true] at hq ⊢
    intro c hc
    have h2 := hq c hc
    simp only [isRegexMeta, Bool.not_eq_true', Bool.or_eq_false_iff] at h2
    simp [h2.1.1.1.1.1.1.1.1.1.1.1.1.1]
  have hfun : (fun row => rowMatches (query.data.map Char.toLower) f.header row)
      = fun row => rowMatchesLit (query.data.map Char.toLower) f.header row := by
    funext row
    simp only [rowMatches, rowMatchesLit]
    rw [cellMatches_eq_lit _ hdot]
  have hheader : (search query f).header = f.header := by
    simp only [search]
    split <;> rfl
  have hrows : (search query f).rows = f.rows.filter
      (fun row =>
        rowMatchesLit (query.data.map Char.toLower) f.header row) := by
    simp only [search]
    split
    case isTrue hs =>
      show f.rows.filter _ = f.rows.filter _
      rw [hfun]
    case isFalse hs =>
      show ([] : List (List (Option String))) = f.rows.filter _
      symm
      rw [List.filter_eq_nil_iff]
      intro row hrow hmatch
      simp only [rowMatchesLit, List.any_eq_true, Bool.and_eq_true] at hmatch
      obtain ⟨p, hmem, hsearchable, -⟩ := hmatch
      exact hs (List.any_eq_true.mpr
        ⟨p.1, (List.of_mem_zip hmem).1, hsearchable⟩)
  refine ⟨hheader, hrows, fun hall => ?_⟩
  rw [hrows, List.filter_eq_nil_iff]
  intro row hrow
  rw [List.all_eq_true] at hall
  simp only [Bool.not_eq_true'] at hall
  simp [hall row hrow]

/-- C5 (witness): the metacharacter-free query `"ABC"` on the fixture with
cells `"xAbc"` and `"zz"` filters to exactly the row containing `"xAbc"` —
the match is case-insensitive. -/
theorem search_literal_substring_witness :
    (search ("ABC") exFrameABC).header = exFrameABC.header ∧
    (search ("ABC") exFrameABC).rows = exFrameABC.rows.filter
      (fun row => rowMatchesLit ((("ABC" : String)).data.map Char.toLower)
        exFrameABC.header row) ∧
    (search ("ABC") exFrameABC).rows = [[some ("xAbc")]] := by
  obtain ⟨h1, h2, -⟩ := search_literal_substring ("ABC") exFrameABC (by decide)
  refine ⟨h1, h2, ?_⟩
  rw [h2]
  decide

/-- Splitting a separator-free piece of text returns the piece alone. -/
theorem splitSep_of_not_mem (sep : Char) (x : List Char) (h : sep ∉ x) :
    splitSep sep x = [x] := by
  induction x with
  | nil => rfl
  | cons c cs ih =>
    have hc : ¬(c = sep) := by
      intro he
      exact h (by rw [he]; exact List.mem_cons_self _ _)
    have hcs : sep ∉ cs := fun hm => h (List.mem_cons_of_mem _ hm)
    simp only [splitSep]
    rw [if_neg hc, ih hcs]

/-- Splitting past a separator-free first piece peels it off. -/
theorem splitSep_append_cons (sep : Char) (x t : List Char) (h : sep ∉ x) :
    splitSep sep (x ++ sep :: t) = x :: splitSep sep t := by
  induction x with
  | nil =>
    simp [splitSep]
  | cons c cs ih =>
    have hc : ¬(c = sep) := by
      intro he
      exact h (by rw [he]; exact List.mem_cons_self _ _)
    have hcs : sep ∉ cs := fun hm => h (List.mem_cons_of_mem _ hm)
    simp only [List.cons_append, splitSep, List.append_eq]
    rw [if_neg hc, ih hcs]

/-- Splitting undoes joining: `splitSep` undoes `joinSep` on nonempty lists of separator-free
pieces. -/
theorem splitSep_joinSep (sep : Char) (xss : List (List Char))
    (hne : xss ≠ []) (h : ∀ xs ∈ xss, sep ∉ xs) :
    splitSep sep (joinSep sep xss) = xss := by
  induction xss with
  | nil => exact absurd rfl hne
  | cons x rest ih =>
    cases rest with
    | nil =>
      simp only [joinSep]
      exact splitSep_of_not_mem sep x (h x (List.mem_cons_self _ _))
    | cons y rest2 =>
      simp only [joinSep]
      rw [splitSep_append_cons sep x _ (h x (List.mem_cons_self _ _)),
        ih (List.cons_ne_nil y rest2)
          (fun xs hxs => h xs (List.mem_cons_of_mem _ hxs))]

/-- A character different from the separator and absent from every piece
is absent from the join. -/
theorem not_mem_joinSep (sep c : Char) (xss : List (List Char))
    (hc : c ≠ sep) (h : ∀ xs ∈ xss, c ∉ xs) : c ∉ joinSep sep xss := by
  induction xss with
  | nil => simp [joinSep]
  | cons x rest ih =>
    cases rest with
    | nil =>
      simp only [joinSep]
      exact h x (List.mem_cons_self _ _)
    | cons y rest2 =>
      simp only [joinSep]
      intro hmem
      rcases List.mem_append.mp hmem with h1 | h2
      · exact h x (List.mem_cons_self _ _) h1
      · rcases List.mem_cons.mp h2 with h3 | h4
        · exact hc h3
        · exact ih (fun xs hxs => h xs (List.mem_cons_of_mem _ hxs)) h4

/-- C7: serializing with `to_csv_str` (no format mapping) and re-parsing
the text as CSV yields the original column-name list as the header record
and one record per original data row — the same row count and the same
column set — provided the column names are comma- and newline-free and the
cell texts are newline-free. -/
theorem to_csv_str_roundtrip (f : Frame)
    (hne : f.header ≠ [])
    (hnames : ∀ n ∈ f.header.map Prod.fst,
      (',') ∉ n.data ∧ ('\n') ∉ n.data)
    (hcells : ∀ row ∈ f.rows, ∀ cell ∈ row, ('\n') ∉ csvCellText cell) :
    (parse_csv (to_csv_str none f)).head?
        = some ((f.header.map Prod.fst).map String.data) ∧
    (parse_csv (to_csv_str none f)).length = f.rows.length + 1 := by
  have hnl : ∀ line ∈
      (joinSep (',') ((f.header.map Prod.fst).map String.data)) ::
        f.rows.map (fun row => joinSep (',') (row.map csvCellText)),
      ('\n') ∉ line := by
    intro line hline
    rcases List.mem_cons.mp hline with h1 | h2
    · rw [h1]
      refine not_mem_joinSep _ _ _ (by decide) ?_
      intro xs hxs
      rcases List.mem_map.mp hxs with ⟨n, hn, he⟩
      rw [← he]
      exact (hnames n hn).2
    · rcases List.mem_map.mp h2 with ⟨row, hrow, he⟩
      rw [← he]
      refine not_mem_joinSep _ _ _ (by decide) ?_
      intro xs hxs
      rcases List.mem_map.mp hxs with ⟨cell, hcell, he2⟩
      rw [← he2]
      exact hcells row hrow cell hcell
  have hsplit : splitSep ('\n') (to_csv_str none f)
      = (joinSep (',') ((f.header.map Prod.fst).map String.data)) ::
          f.rows.map (fun row => joinSep (',') (row.map csvCellText)) :=
    splitSep_joinSep ('\n') _ (List.cons_ne_nil _ _) hnl
  have hparse : parse_csv (to_csv_str none f)
      = (splitSep (',')
            (joinSep (',') ((f.header.map Prod.fst).map String.data))) ::
          (f.rows.map (fun row => joinSep (',') (row.map csvCellText))).map
            (splitSep (',')) := by
    simp only [parse_csv]
    rw [hsplit, List.map_cons]
  have hhead : splitSep (',')
      (joinSep (',') ((f.header.map Prod.fst).map String.data))
      = (f.header.map Prod.fst).map String.data := by
    refine splitSep_joinSep (',') _ ?_ ?_
    · simp only [ne_eq, List.map_eq_nil_iff]
      exact hne
    · intro xs hxs
      rcases List.mem_map.mp hxs with ⟨n, hn, he⟩
      rw [← he]
      exact (hnames n hn).1
  constructor
  · rw [hparse, List.head?_cons, hhead]
  · rw [hparse]
    simp [List.length_map]

/-- C7 (witness): the round trip on the concrete two-column, one-row
fixture. -/
theorem to_csv_str_roundtrip_witness :
    (parse_csv (to_csv_str none exFrameCsv)).head?
        = some ((exFrameCsv.header.map Prod.fst).map String.data) ∧
    (parse_csv (to_csv_str none exFrameCsv)).length
        = exFrameCsv.rows.length + 1 :=
  to_csv_str_roundtrip exFrameCsv (by decide) (by decide) (by decide)

/-- Allocating a new adapter instance preserves every existing instance's
wrapped frame and returns a fresh instance. -/
theorem alloc_preserves (s : Store) (m : Nat) (f : Frame)
    (hm : m < s.frames.length) :
    (alloc s f).1.frames[m]? = s.frames[m]? ∧ (alloc s f).2 ≠ m := by
  constructor
  · show (s.frames ++ [f])[m]? = s.frames[m]?
    exact List.getElem?_append_left hm
  · show s.frames.length ≠ m
    omega

/-- C8 (counterexample): `apply_formatting` with no format mapping returns
`self` — the very same adapter instance (index `0`), not a new one — so
the claim that every listed transforming operation returns a new adapter
instance fails for `apply_formatting`. -/
theorem apply_formatting_none_returns_self :
    apply_formatting_op exStore 0 none = (exStore, 0) ∧
    (apply_formatting_op exStore 0 none).2 = 0 := by
  exact ⟨rfl, rfl⟩

/-- C8 (amended): every transforming operation leaves the originating
adapter's wrapped frame unchanged in the store; `select_rows`,
`select_columns`, `drop_columns`, `sort_values`, `search`, a successful
`take`, and `apply_formatting` with a nonempty mapping each return a new
adapter instance, while `apply_formatting` with no mapping or with an
empty mapping (both falsy under the source's `if not format_mapping`
check) returns the same instance (and trivially preserves the wrapped
value). -/
theorem transform_ops_preserve_original (s : Store) (m : Nat)
    (indices : List Nat) (columns columns2 : List String)
    (count offset : Int) (by_ : String) (descending : Bool)
    (query : String) (fm : FormatMapping)
    (hm : m < s.frames.length) :
    ((select_rows_op s m indices).1.frames[m]? = s.frames[m]? ∧
      (select_rows_op s m indices).2 ≠ m) ∧
    ((select_columns_op s m columns).1.frames[m]? = s.frames[m]? ∧
      (select_columns_op s m columns).2 ≠ m) ∧
    ((drop_columns_op s m columns2).1.frames[m]? = s.frames[m]? ∧
      (drop_columns_op s m columns2).2 ≠ m) ∧
    ((sort_values_op s m by_ descending).1.frames[m]? = s.frames[m]? ∧
      (sort_values_op s m by_ descending).2 ≠ m) ∧
    ((search_op s m query).1.frames[m]? = s.frames[m]? ∧
      (search_op s m query).2 ≠ m) ∧
    (∀ s2 m2, take_op s m count offset = Except.ok (s2, m2) →
      s2.frames[m]? = s.frames[m]? ∧ m2 ≠ m) ∧
    ((apply_formatting_op s m (some fm)).1.frames[m]? = s.frames[m]?) ∧
    (fm.isEmpty = false → (apply_formatting_op s m (some fm)).2 ≠ m) ∧
    apply_formatting_op s m (some ([] : FormatMapping)) = (s, m) ∧
    apply_formatting_op s m none = (s, m) := by
  have happ1 : (apply_formatting_op s m (some fm)).1.frames[m]?
      = s.frames[m]? := by
    by_cases h : fm.isEmpty = true
    · simp only [apply_formatting_op, if_pos h]
    · simp only [apply_formatting_op, if_neg h]
      exact (alloc_preserves s m _ hm).1
  have happ2 : fm.isEmpty = false →
      (apply_formatting_op s m (some fm)).2 ≠ m := by
    intro hne
    have h : ¬(fm.isEmpty = true) := by simp [hne]
    simp only [apply_formatting_op, if_neg h]
    exact (alloc_preserves s m _ hm).2
  refine ⟨alloc_preserves s m _ hm, alloc_preserves s m _ hm,
    alloc_preserves s m _ hm, alloc_preserves s m _ hm,
    alloc_preserves s m _ hm, ?_, happ1, happ2, rfl, rfl⟩
  intro s2 m2 htake
  unfold take_op at htake
  cases hres : take count offset (readFrame s m).rows with
  | error e =>
    rw [hres] at htake
    exact absurd htake (by simp)
  | ok rows =>
    rw [hres] at htake
    have h2 : alloc s { readFrame s m with rows := rows } = (s2, m2) := by
      injection htake
    obtain ⟨h3, h4⟩ :=
      alloc_preserves s m { readFrame s m with rows := rows } hm
    rw [h2] at h3 h4
    exact ⟨h3, h4⟩

/-- C8 (witness): on the one-instance store, `select_rows` preserves the
original instance's frame and returns a fresh instance; `apply_formatting`
with a nonempty mapping returns a fresh instance, while with an empty
mapping or no mapping it returns the original instance. -/
theorem transform_ops_witness :
    ((select_rows_op exStore 0 []).1.frames[0]? = exStore.frames[0]? ∧
      (select_rows_op exStore 0 []).2 ≠ 0) ∧
    (apply_formatting_op exStore 0
      (some ([(("s"), fun c => c)] : FormatMapping))).2 ≠ 0 ∧
    apply_formatting_op exStore 0 (some ([] : FormatMapping))
        = (exStore, 0) ∧
    apply_formatting_op exStore 0 none = (exStore, 0) := by
  obtain ⟨h1, -, -, -, -, -, -, h8, h9, h10⟩ :=
    transform_ops_preserve_original exStore 0 [] [] [] 1 0 ("s") false
      ("q") ([(("s"), fun c => c)] : FormatMapping) (by decide)
  exact ⟨h1, h8 rfl, h9, h10⟩

end Marimo
